/-
Verification of the protocol_toolkit schema-compiler spec against the
generator sources.

The embedding models the semantics of the code that the Python generators
emit, together with the generator-side data transformations themselves:

* `src/attic/gen_codec/gen_codec.py` — byte-layout plans
  (`CodeGenerator.get_decode_code` / `get_encode_code`), the generated
  record-decode control flow (`generate_implementation`), and the regex
  field parser (`parse_struct_fields`).
* `src/tools/gen_codec/attic/gen_codec_final.py` (identical logic in
  `gen_codec_v2.py` and `gen_codec.py` in the same directory) — type
  mapping (`get_c_type`), bit-field accessors emitted by
  `generate_header`, the `bit_source` transformer, and ordinal
  assignment in `CodeGenerator.process`.

Machine integers are modelled as `Nat` with explicit masking; byte
sequences as `List Nat` of byte values; C float variables by their
IEEE-754 bit pattern, with the C numeric int-to-float conversion
modelled by `natToF32bits` (round to nearest even).
-/
import Mathlib

namespace ProtocolToolkit

/-! ## Byte-layout engine

Semantics of the decode expressions emitted by
`CodeGenerator.get_decode_code` (src/attic/gen_codec/gen_codec.py,
lines 246-278): the integer value reconstructed from `size`
independently fetched bytes.  `bytes` is the fetched byte array; the
emitted C expression indexes it exactly as written in the source. -/

/-- Byte `i` of the fetched array (bytes are values `< 256`). -/
def byteAt (bs : List Nat) (i : Nat) : Nat := bs.getD i 0

/-- Decode plan for `codec_u16_be` / `codec_i16_be`:
`(bytes[0] << 8) | bytes[1]`. -/
def decode_be2 (bs : List Nat) : Nat :=
  (byteAt bs 0 <<< 8) ||| byteAt bs 1

/-- Decode plan for 4-byte `_be` types:
`(bytes[0] << 24) | (bytes[1] << 16) | (bytes[2] << 8) | bytes[3]`. -/
def decode_be4 (bs : List Nat) : Nat :=
  (byteAt bs 0 <<< 24) ||| (byteAt bs 1 <<< 16) ||| (byteAt bs 2 <<< 8) ||| byteAt bs 3

/-- Decode plan for 8-byte `_be` types. -/
def decode_be8 (bs : List Nat) : Nat :=
  (byteAt bs 0 <<< 56) ||| (byteAt bs 1 <<< 48) ||| (byteAt bs 2 <<< 40) |||
  (byteAt bs 3 <<< 32) ||| (byteAt bs 4 <<< 24) ||| (byteAt bs 5 <<< 16) |||
  (byteAt bs 6 <<< 8) ||| byteAt bs 7

/-- Decode plan for `codec_u16_le` / `codec_i16_le`:
`bytes[0] | (bytes[1] << 8)`. -/
def decode_le2 (bs : List Nat) : Nat :=
  byteAt bs 0 ||| (byteAt bs 1 <<< 8)

/-- Decode plan for 4-byte `_le` types:
`bytes[0] | (bytes[1] << 8) | (bytes[2] << 16) | (bytes[3] << 24)`. -/
def decode_le4 (bs : List Nat) : Nat :=
  byteAt bs 0 ||| (byteAt bs 1 <<< 8) ||| (byteAt bs 2 <<< 16) ||| (byteAt bs 3 <<< 24)

/-- Decode plan for 8-byte `_le` types. -/
def decode_le8 (bs : List Nat) : Nat :=
  byteAt bs 0 ||| (byteAt bs 1 <<< 8) ||| (byteAt bs 2 <<< 16) ||| (byteAt bs 3 <<< 24) |||
  (byteAt bs 4 <<< 32) ||| (byteAt bs 5 <<< 40) ||| (byteAt bs 6 <<< 48) ||| (byteAt bs 7 <<< 56)

/-- Decode plan for 4-byte `_be_bs` types (source line 268):
`(bytes[2] << 24) | (bytes[3] << 16) | (bytes[1] << 8) | bytes[0]`. -/
def decode_be_bs4 (bs : List Nat) : Nat :=
  (byteAt bs 2 <<< 24) ||| (byteAt bs 3 <<< 16) ||| (byteAt bs 1 <<< 8) ||| byteAt bs 0

/-- Decode plan for 8-byte `_be_bs` types (source lines 270-271). -/
def decode_be_bs8 (bs : List Nat) : Nat :=
  (byteAt bs 6 <<< 56) ||| (byteAt bs 7 <<< 48) ||| (byteAt bs 4 <<< 40) |||
  (byteAt bs 5 <<< 32) ||| (byteAt bs 2 <<< 24) ||| (byteAt bs 3 <<< 16) |||
  (byteAt bs 0 <<< 8) ||| byteAt bs 1

/-- Decode plan for 4-byte `_le_bs` types (source line 275):
`bytes[1] | (bytes[0] << 8) | (bytes[3] << 16) | (bytes[2] << 24)`. -/
def decode_le_bs4 (bs : List Nat) : Nat :=
  byteAt bs 1 ||| (byteAt bs 0 <<< 8) ||| (byteAt bs 3 <<< 16) ||| (byteAt bs 2 <<< 24)

/-- Decode plan for 8-byte `_le_bs` types (source lines 277-278). -/
def decode_le_bs8 (bs : List Nat) : Nat :=
  byteAt bs 1 ||| (byteAt bs 0 <<< 8) ||| (byteAt bs 3 <<< 16) ||| (byteAt bs 2 <<< 24) |||
  (byteAt bs 5 <<< 32) ||| (byteAt bs 4 <<< 40) ||| (byteAt bs 7 <<< 48) ||| (byteAt bs 6 <<< 56)

/-! Semantics of the encode byte assignments emitted by
`CodeGenerator.get_encode_code` (src/attic/gen_codec/gen_codec.py,
lines 321-373).  The result list is the `bytes` array by index, so the
list at position `i` is the value the emitted code stores in
`bytes[i]`.  All integer variants of the same width and order emit the
same expressions; for `f32`/`f64` the same expressions are applied to
`u.i`, the union-reinterpreted bit pattern of the value. -/

/-- Encode plan for 2-byte `_be` types:
`bytes[0] = (v >> 8) & 0xFF; bytes[1] = v & 0xFF;`. -/
def encode_be2 (v : Nat) : List Nat :=
  [(v >>> 8) &&& 0xFF, v &&& 0xFF]

/-- Encode plan for 4-byte `_be` types (source lines 328-331). -/
def encode_be4 (v : Nat) : List Nat :=
  [(v >>> 24) &&& 0xFF, (v >>> 16) &&& 0xFF, (v >>> 8) &&& 0xFF, v &&& 0xFF]

/-- Encode plan for 8-byte `_be` types: `bytes[i] = (v >> (7-i)*8) & 0xFF`. -/
def encode_be8 (v : Nat) : List Nat :=
  [(v >>> 56) &&& 0xFF, (v >>> 48) &&& 0xFF, (v >>> 40) &&& 0xFF, (v >>> 32) &&& 0xFF,
   (v >>> 24) &&& 0xFF, (v >>> 16) &&& 0xFF, (v >>> 8) &&& 0xFF, v &&& 0xFF]

/-- Encode plan for 2-byte `_le` types. -/
def encode_le2 (v : Nat) : List Nat :=
  [v &&& 0xFF, (v >>> 8) &&& 0xFF]

/-- Encode plan for 4-byte `_le` types (source lines 342-345). -/
def encode_le4 (v : Nat) : List Nat :=
  [v &&& 0xFF, (v >>> 8) &&& 0xFF, (v >>> 16) &&& 0xFF, (v >>> 24) &&& 0xFF]

/-- Encode plan for 8-byte `_le` types: `bytes[i] = (v >> i*8) & 0xFF`. -/
def encode_le8 (v : Nat) : List Nat :=
  [v &&& 0xFF, (v >>> 8) &&& 0xFF, (v >>> 16) &&& 0xFF, (v >>> 24) &&& 0xFF,
   (v >>> 32) &&& 0xFF, (v >>> 40) &&& 0xFF, (v >>> 48) &&& 0xFF, (v >>> 56) &&& 0xFF]

/-- Encode plan for 4-byte `_be_bs` types (source lines 353-356):
`bytes[2] = (v >> 24) & 0xFF; bytes[3] = (v >> 16) & 0xFF;
bytes[1] = (v >> 8) & 0xFF; bytes[0] = v & 0xFF;`
listed here in index order 0,1,2,3. -/
def encode_be_bs4 (v : Nat) : List Nat :=
  [v &&& 0xFF, (v >>> 8) &&& 0xFF, (v >>> 24) &&& 0xFF, (v >>> 16) &&& 0xFF]

/-- Encode plan for 8-byte `_be_bs` types (source lines 358-361):
`byte_order = [6,7,4,5,2,3,0,1]` with `shift = (7-i)*8`, listed in
index order. -/
def encode_be_bs8 (v : Nat) : List Nat :=
  [(v >>> 8) &&& 0xFF, v &&& 0xFF, (v >>> 24) &&& 0xFF, (v >>> 16) &&& 0xFF,
   (v >>> 40) &&& 0xFF, (v >>> 32) &&& 0xFF, (v >>> 56) &&& 0xFF, (v >>> 48) &&& 0xFF]

/-- Encode plan for 4-byte `_le_bs` types (source lines 365-368):
`bytes[1] = v & 0xFF; bytes[0] = (v >> 8) & 0xFF;
bytes[3] = (v >> 16) & 0xFF; bytes[2] = (v >> 24) & 0xFF;`
listed in index order. -/
def encode_le_bs4 (v : Nat) : List Nat :=
  [(v >>> 8) &&& 0xFF, v &&& 0xFF, (v >>> 24) &&& 0xFF, (v >>> 16) &&& 0xFF]

/-- Encode plan for 8-byte `_le_bs` types (source lines 370-373):
`byte_order = [1,0,3,2,5,4,7,6]` with `shift = i*8`, listed in index
order. -/
def encode_le_bs8 (v : Nat) : List Nat :=
  [(v >>> 8) &&& 0xFF, v &&& 0xFF, (v >>> 24) &&& 0xFF, (v >>> 16) &&& 0xFF,
   (v >>> 40) &&& 0xFF, (v >>> 32) &&& 0xFF, (v >>> 56) &&& 0xFF, (v >>> 48) &&& 0xFF]

/-! ## Float handling in the emitted code

For `f32`/`f64` fields the decode code (source lines 281-287) first
executes the integer byte-combination assignment with the *float*
field as the assignment target — a C numeric int-to-float conversion —
and then runs
`u.i = *((uint32_t*)&var); var = u.f;`, which reads the bit pattern of
the float variable and reinterprets it back: an identity on the
variable.  The encode code (lines 312-317) instead sets `u.f = var`
and feeds `u.i` (the bit pattern) to the byte extraction.

Floats are modelled by their IEEE-754 bit pattern.  `natToF32bits n`
is the bit pattern of the C conversion `(float)n` for a non-negative
integer `n` (round to nearest, ties to even), which is the semantics
of the emitted assignment at inputs where the C integer expression is
non-negative. -/

/-- Fuelled floor-log2 helper (structurally recursive so that concrete
values reduce in the kernel). -/
def floorLog2Aux : Nat → Nat → Nat
  | 0, _ => 0
  | fuel + 1, n => if 2 ≤ n then floorLog2Aux fuel (n / 2) + 1 else 0

/-- Floor of log2 for positive inputs: the index of the most
significant set bit. -/
def floorLog2 (n : Nat) : Nat := floorLog2Aux n n

/-- Bit pattern of `(float)n` (IEEE-754 binary32, round to nearest even)
for a natural number `n < 2^128`. -/
def natToF32bits (n : Nat) : Nat :=
  if n = 0 then 0
  else
    let k := floorLog2 n
    if k ≤ 23 then
      ((127 + k) <<< 23) ||| ((n <<< (23 - k)) - (1 <<< 23))
    else
      let shift := k - 23
      let q := n >>> shift
      let r := n % (1 <<< shift)
      let half := 1 <<< (shift - 1)
      let q2 := if half < r ∨ (r = half ∧ q % 2 = 1) then q + 1 else q
      if q2 = 1 <<< 24 then (128 + k) <<< 23
      else ((127 + k) <<< 23) ||| (q2 - (1 <<< 23))

/-- Model of `u.i = *((uint32_t*)&var)`: reading the bit pattern of a
float variable (floats are represented by their bit pattern). -/
def f32_bits_of_var (b : Nat) : Nat := b

/-- Model of `var = u.f`: storing a float with bit pattern `b` into the
float variable. -/
def f32_var_of_bits (b : Nat) : Nat := b

/-- Decode pipeline emitted for `codec_f32_be` (source lines 252 and
281-287): the integer expression is assigned to the float field
(numeric conversion), then the union reinterpretation dance runs. -/
def decode_f32_be (bs : List Nat) : Nat :=
  let assigned := natToF32bits (decode_be4 bs)
  f32_var_of_bits (f32_bits_of_var assigned)

/-- Encode pipeline emitted for `codec_f32_be` (source lines 312-317,
328-331): `u.f = value; bytes from u.i` — the byte plan is applied to
the value's bit pattern. -/
def encode_f32_be (valueBits : Nat) : List Nat :=
  encode_be4 (f32_bits_of_var valueBits)

/-! ## Generated record-decode control flow

Model of the decode function emitted by
`CodeGenerator.generate_implementation`
(src/attic/gen_codec/gen_codec.py, lines 395-471).  The function
mallocs `result`, then processes fields in order:

* a scalar codec field runs the inline `get_decode_code` block, whose
  failure path (lines 228-231 / 240-243) is a bare
  `return CODEC_ERR_OUT_OF_BOUNDS;` — it does **not** call
  `dispose(result)`;
* an embedded-struct field calls the nested `_decode` with the same
  `input_buf` (the nested function restarts at offset 0 and the outer
  `offset` is not advanced), and on failure calls
  `{struct}_dispose(result)` before returning the error (lines 446-451);
* only on full success does it set `*value = result`.

Buffers are modelled by their length; `buf_get_u8` at offset `o` fails
with `OUT_OF_BOUNDS` iff `o` is not below the length. -/

inductive CodecErr where
  | out_of_bounds
  | null_ref
  deriving DecidableEq, Repr

/-- Field shapes relevant to the emitted decode control flow: an inline
scalar codec field of a given byte size, or an embedded struct field
decoded by a recursive call. -/
inductive FieldShape where
  | scalar (size : Nat)
  | nested (sub : List FieldShape)
  deriving Repr

/-- Run the emitted per-field decode blocks over a buffer of length
`len` starting at `off`.  On success, the final value of `offset`; on
failure, the propagated error code paired with whether the emitted
failure path called `dispose(result)` for the record being decoded. -/
def runFields (len : Nat) : List FieldShape → Nat → Except (CodecErr × Bool) Nat
  | [], off => .ok off
  | .scalar sz :: rest, off =>
      if off + sz ≤ len then runFields len rest (off + sz)
      else .error (CodecErr.out_of_bounds, false)
  | .nested sub :: rest, off =>
      match runFields len sub 0 with
      | .ok _ => runFields len rest off
      | .error (e, _) => .error (e, true)

/-- Outcome of one emitted `{struct}_decode` call. -/
structure DecodeOutcome where
  err : Option CodecErr
  disposedOnFailure : Bool
  valueSet : Bool
  deriving DecidableEq, Repr

/-- Model of the whole emitted decode function for a record with the
given fields over an input buffer of length `len`. -/
def recordDecode (fields : List FieldShape) (len : Nat) : DecodeOutcome :=
  match runFields len fields 0 with
  | .ok _ => ⟨none, false, true⟩
  | .error (e, d) => ⟨some e, d, false⟩

/-! ## Bit-field accessors

Model of the inline accessor pair emitted by
`CodeGenerator.generate_header`
(src/tools/gen_codec/attic/gen_codec_final.py, lines 366-377; the
emission in `gen_codec_v2.py` lines 450-460 and `gen_codec.py` lines
303-313 is textually identical):

    get:  return (msg->container >> start_bit) & ((1 << length) - 1);
    set:  msg->container &= ~(((1 << length) - 1) << start_bit);
          msg->container |= (value & ((1 << length) - 1)) << start_bit;
          msg->field = value;

The container member has bit width `W`; `~x` followed by `&=` on a
`W`-bit member is modelled as masking with `(2^W - 1) XOR x`.

The mask expression `((1 << length) - 1)` and the shifts on it are
C `int` (32-bit) arithmetic.  The `Nat` functions below are the exact
semantics of the emitted code precisely when `length ≤ 30` and
`start_bit + length ≤ 31`: every intermediate `int` value is then
non-negative and representable, so no wrap or undefined behaviour
occurs.  For `length ≥ 31` (possible with `u32`/`u64` containers,
since nothing validates lengths) the shift `1 << length` overflows
`int` and is undefined behaviour; that region is modelled separately
by `bf_setget64_ub` below, parametrised over the possible runtime
values of the mask expression. -/

/-- The C mask expression `(1 << length) - 1`, exact (as a 32-bit int
value) for `length ≤ 30`. -/
def bf_mask (len : Nat) : Nat := (1 <<< len) - 1

/-- Emitted setter's effect on the container member (width `W`), exact
for `length ≤ 30` and `start_bit + length ≤ 31`. -/
def bf_set (W s len c v : Nat) : Nat :=
  (c &&& (((1 <<< W) - 1) ^^^ (bf_mask len <<< s))) ||| ((v &&& bf_mask len) <<< s)

/-- Emitted getter: `(container >> start_bit) & mask`, exact for
`length ≤ 30` and a start bit inside the container. -/
def bf_get (s len c : Nat) : Nat := (c >>> s) &&& bf_mask len

/-- The 64-bit unsigned images of a 32-bit C `int` value (the C
conversion sign-extends): non-negative ints below `2^31`, and
sign-extended negatives. -/
def i32AsU64 (m : Nat) : Prop :=
  m < 2 ^ 31 ∨ (2 ^ 64 - 2 ^ 31 ≤ m ∧ m < 2 ^ 64)

/-- Emitted set-then-get on a `uint64_t` container at `start_bit = 0`
when `length ≥ 31`: the three occurrences of the 32-bit int mask
expression `((1 << length) - 1)` (two in the setter, one in the
getter) are undefined behaviour, so their runtime 64-bit images are
parameters `m1`, `m2`, `m3`; the surrounding 64-bit arithmetic is
defined and transcribed exactly:
`c1 = (c & ~m1) | (v & m2); result = c1 & m3`. -/
def bf_setget64_ub (c v m1 m2 m3 : Nat) : Nat :=
  ((c &&& ((2 ^ 64 - 1) ^^^ m1)) ||| (v &&& m2)) &&& m3

/-- Bit width of the C type chosen by `get_bit_field_type`
(gen_codec_final.py lines 196-205) for a bit-field of the given
length: `uint8_t`/`uint16_t`/`uint32_t`/`uint64_t`. -/
def bitFieldTypeWidth (len : Nat) : Nat :=
  if len ≤ 8 then 8
  else if len ≤ 16 then 16
  else if len ≤ 32 then 32
  else 64

/-- The part of the generated message struct a bit-field accessor can
touch: the container member, the struct member named after the
bit-field (the cached copy), and the remaining members. -/
structure BfMsg where
  container : Nat
  cached : Nat
  others : List Nat
  deriving DecidableEq, Repr

/-- Emitted setter on the struct: updates the masked container bits and
stores the incoming value into the bit-field's own member; no other
member is touched. -/
def bfmsg_set (W s len : Nat) (m : BfMsg) (v : Nat) : BfMsg :=
  { container := bf_set W s len m.container v
    cached := v
    others := m.others }

/-- Emitted getter on the struct: reads only the container member. -/
def bfmsg_get (s len : Nat) (m : BfMsg) : Nat := bf_get s len m.container

/-- Message-level set-then-get for a `uint64_t` container at
`start_bit = 0` with `length ≥ 31` (the undefined-behaviour region of
the emitted int-width mask, see `bf_setget64_ub`): returns the struct
after the setter together with the getter's result. -/
def bfmsg_setget64_ub (m : BfMsg) (v m1 m2 m3 : Nat) : BfMsg × Nat :=
  let c1 := (m.container &&& ((2 ^ 64 - 1) ^^^ m1)) ||| (v &&& m2)
  (⟨c1, v, m.others⟩, c1 &&& m3)

/-! ## Generator pipeline of gen_codec_final.py

Embedding of the data transformations in
`src/tools/gen_codec/attic/gen_codec_final.py`: `PDLTransformer`
output shapes, `CodeGenerator.get_c_type`, `get_bit_field_type`,
`generate_field`, `generate_message` and `process`. -/

/-- Result of the `bit_source` transformer rule (lines 155-161): the
raw parameters, passed through with no validation. -/
structure BitSource where
  container : String
  start_bit : Nat
  length : Nat
  deriving DecidableEq, Repr

/-- A field entry of a message definition as produced by the
transformer: a bare type reference, an array form, or an inline
bit-field spec. -/
inductive FieldTypeSpec where
  | type_ref (ref : String)
  | array (element_type : String) (size : String)
  | bit_field (source : BitSource)
  deriving DecidableEq, Repr

/-- A `field_def` as produced by the transformer (lines 134-135). -/
structure FieldDef where
  name : String
  spec : FieldTypeSpec
  deriving DecidableEq, Repr

/-- The transformer's `bit_source` rule (lines 156-161): builds the
record from the parsed tokens; there is no range or container check. -/
def bit_source (container : String) (start_bit length : Nat) : BitSource :=
  ⟨container, start_bit, length⟩

/-- The payload of a `Definition` (lines 67-71): its kind plus the
attributes each kind carries. -/
inductive DefPayload where
  | primitive (base_type : String) (byte_order : List Nat)
  | message (fields : List FieldDef)
  | constant (type_ref : String) (value : Nat)
  deriving DecidableEq, Repr

/-- A named definition from one compilation unit. -/
structure Definition where
  name : String
  payload : DefPayload
  deriving DecidableEq, Repr

/-- The fixed PDL-to-C `type_map` of `get_c_type` (lines 182-193). -/
def type_map : List (String × String) :=
  [("u8", "uint8_t"), ("u16", "uint16_t"), ("u32", "uint32_t"), ("u64", "uint64_t"),
   ("i8", "int8_t"), ("i16", "int16_t"), ("i32", "int32_t"), ("i64", "int64_t"),
   ("f32", "float"), ("f64", "double")]

/-- `get_c_type` (lines 180-194): `type_map.get(pdl_type, pdl_type + "_t")`
— an unknown name falls back to the name suffixed with `_t`. -/
def get_c_type (pdl_type : String) : String :=
  (type_map.lookup pdl_type).getD (pdl_type ++ "_t")

/-- `get_bit_field_type` (lines 196-205) as a C type name. -/
def get_bit_field_type (bit_length : Nat) : String :=
  if bit_length ≤ 8 then "uint8_t"
  else if bit_length ≤ 16 then "uint16_t"
  else if bit_length ≤ 32 then "uint32_t"
  else "uint64_t"

/-- A generated field record (lines 74-79). -/
structure GeneratedField where
  name : String
  c_type : String
  is_array : Bool := false
  is_bit_field : Bool := false
  bit_field_info : Option BitSource := none
  deriving DecidableEq, Repr

/-- A generated message record (lines 81-85). -/
structure GeneratedMessage where
  name : String
  fields : List GeneratedField
  message_type_id : Nat
  deriving DecidableEq, Repr

/-- `generate_field` (lines 244-277): every field shape is turned into
a `GeneratedField` unconditionally — no name resolution against any
registry, no bit-field range validation. -/
def generate_field (fd : FieldDef) : Option GeneratedField :=
  match fd.spec with
  | .bit_field source =>
      some { name := fd.name
             c_type := get_bit_field_type source.length
             is_bit_field := true
             bit_field_info := some source }
  | .array element_type _ =>
      some { name := fd.name
             c_type := get_c_type element_type ++ "_array_t *"
             is_array := true }
  | .type_ref ref =>
      some { name := fd.name, c_type := get_c_type ref }

/-- `generate_message` (lines 228-242) at a given value of
`message_type_counter`. -/
def generate_message (defn : Definition) (counter : Nat) : GeneratedMessage :=
  { name := defn.name
    fields := (match defn.payload with
               | .message fds => fds
               | _ => []).filterMap generate_field
    message_type_id := counter }

/-- A generated constant entry (lines 279-285). -/
structure GeneratedConstant where
  name : String
  c_type : String
  value : Nat
  deriving DecidableEq, Repr

/-- `generate_constant` (lines 279-285), with `name.upper()` modelled
by `String.toUpper`. -/
def generate_constant (defn : Definition) : GeneratedConstant :=
  { name := defn.name.toUpper
    c_type := get_c_type (match defn.payload with
                          | .constant tr _ => tr
                          | _ => "u32")
    value := match defn.payload with
             | .constant _ v => v
             | _ => 0 }

/-- The loop body of `process` (lines 207-226), threading the
`message_type_counter` that starts at 1: a message definition is
generated with the current counter and bumps it; a constant is
generated without touching it; any other definition is skipped. -/
def processDefs (counter : Nat) :
    List Definition → (List GeneratedMessage × List GeneratedConstant)
  | [] => ([], [])
  | d :: rest =>
      match d.payload with
      | .message _ =>
          let (ms, cs) := processDefs (counter + 1) rest
          (generate_message d counter :: ms, cs)
      | .constant _ _ =>
          let (ms, cs) := processDefs counter rest
          (ms, generate_constant d :: cs)
      | .primitive _ _ => processDefs counter rest

/-- `CodeGenerator.process` with the initial counter value 1 set in
`__init__` (line 178). -/
def process (defs : List Definition) : List GeneratedMessage × List GeneratedConstant :=
  processDefs 1 defs

/-- Decides whether a definition is a message definition. -/
def isMessageDef (d : Definition) : Bool :=
  match d.payload with
  | .message _ => true
  | _ => false

/-- The bit-field accessor blocks that `generate_header` emits for a
message (lines 360-377): one getter/setter pair per field with
`is_bit_field` set; emission is unconditional on the spec's range. -/
def headerBitFieldAccessors (msg : GeneratedMessage) : List GeneratedField :=
  msg.fields.filter (·.is_bit_field)

/-! ## Regex field parser of the attic generator

Embedding of `CodeGenerator.parse_struct_fields`
(src/attic/gen_codec/gen_codec.py, lines 102-123).  The struct body is
split on `;`, each piece is stripped, empty pieces are discarded, and
each remaining line is matched (anchored at its start, trailing text
ignored) against

    (\w+|\bstruct\s+\w+)\s+(\**)(\w+)(\[([^\]]+)\])?

Lines that do not match are silently skipped — there is no error path.
The regex alternation is implemented with its leftmost-preference
semantics; successive greedy classes (`\w`, `\s`, `*`) are pairwise
disjoint, so maximal munch coincides with the backtracking result. -/

/-- Python `\w`: ASCII letters, digits and underscore (the inputs are
ASCII source text). -/
def isWordChar (c : Char) : Bool :=
  c.isAlpha || c.isDigit || c = '_'

/-- Python `\s`: space, tab, newline, carriage return, vertical tab,
form feed. -/
def isSpaceChar (c : Char) : Bool :=
  c = ' ' || c = '\t' || c = '\n' || c = '\r' || c = '\x0b' || c = '\x0c'

/-- Greedy match of one-or-more characters satisfying `p`; fails on
zero matches. -/
def takeClass1 (p : Char → Bool) (s : List Char) : Option (List Char × List Char) :=
  let t := s.takeWhile p
  if t.isEmpty then none else some (t, s.drop t.length)

/-- A parsed field, mirroring the `Field` class (lines 8-16). -/
structure CField where
  field_type : String
  name : String
  array_size : Option String
  is_ptr : Bool
  deriving DecidableEq, Repr

/-- The tail of the field regex after group 1:
`\s+(\**)(\w+)(\[([^\]]+)\])?` with `re.match` semantics (trailing
unmatched text is ignored; an unclosed or empty bracket simply leaves
the optional group unmatched). -/
def matchFieldTail (g1 : List Char) (s : List Char) : Option CField :=
  match takeClass1 isSpaceChar s with
  | none => none
  | some (_, s1) =>
    let stars := s1.takeWhile (· = '*')
    let s2 := s1.drop stars.length
    match takeClass1 isWordChar s2 with
    | none => none
    | some (nm, s3) =>
      let arr : Option String :=
        match s3 with
        | '[' :: rest =>
            let inner := rest.takeWhile (· ≠ ']')
            if inner.isEmpty then none
            else if (rest.drop inner.length).head? = some ']' then
              some (String.mk inner)
            else none
        | _ => none
      some ⟨String.mk g1, String.mk nm, arr, !stars.isEmpty⟩

/-- Group 1, first alternative: `\w+`. -/
def matchAltWord (s : List Char) : Option (List Char × List Char) :=
  takeClass1 isWordChar s

/-- Group 1, second alternative: `\bstruct\s+\w+` (the captured text
includes the literal, the whitespace run and the word). -/
def matchAltStruct (s : List Char) : Option (List Char × List Char) :=
  match s with
  | 's' :: 't' :: 'r' :: 'u' :: 'c' :: 't' :: rest =>
      match takeClass1 isSpaceChar rest with
      | none => none
      | some (sp, rest1) =>
        match takeClass1 isWordChar rest1 with
        | none => none
        | some (w, rest2) =>
            some ('s' :: 't' :: 'r' :: 'u' :: 'c' :: 't' :: (sp ++ w), rest2)
  | _ => none

/-- `re.match` of the field pattern against one stripped line:
alternative one with its tail, falling back to alternative two. -/
def matchFieldLine (s : List Char) : Option CField :=
  match matchAltWord s with
  | some (w, rest) =>
      match matchFieldTail w rest with
      | some f => some f
      | none =>
          match matchAltStruct s with
          | some (g1, rest2) => matchFieldTail g1 rest2
          | none => none
  | none =>
      match matchAltStruct s with
      | some (g1, rest2) => matchFieldTail g1 rest2
      | none => none

/-- Split a character list on `;`, mirroring `str.split(';')`. -/
def splitSemi : List Char → List (List Char)
  | [] => [[]]
  | c :: rest =>
      let r := splitSemi rest
      if c = ';' then [] :: r
      else
        match r with
        | [] => [[c]]
        | h :: t => (c :: h) :: t

/-- Python `str.strip()` on a character list. -/
def stripChars (s : List Char) : List Char :=
  ((s.dropWhile isSpaceChar).reverse.dropWhile isSpaceChar).reverse

/-- `parse_struct_fields` (lines 102-123): split on `;`, strip, drop
empty lines, regex-match each line, silently skipping lines with no
match. -/
def parse_struct_fields (body : List Char) : List CField :=
  (((splitSemi body).map stripChars).filter (fun l => !l.isEmpty)).filterMap
    matchFieldLine

/-! ## Helper lemmas -/

/-- Setting a bit-field and reading it back through the emitted
accessor pair returns the set value masked to the field's length,
provided the field lies inside the container (the invariant the spec
demands of every bit-field). -/
theorem bf_get_bf_set (W s len c v : Nat) (h : s + len ≤ W) :
    bf_get s len (bf_set W s len c v) = v &&& bf_mask len := by
  have hm : bf_mask len = 2 ^ len - 1 := by
    simp [bf_mask, Nat.shiftLeft_eq]
  have hw : (1 <<< W) - 1 = 2 ^ W - 1 := by
    simp [Nat.shiftLeft_eq]
  apply Nat.eq_of_testBit_eq
  intro i
  simp only [bf_get, bf_set, hm, hw, Nat.testBit_and, Nat.testBit_or,
    Nat.testBit_xor, Nat.testBit_shiftRight, Nat.testBit_shiftLeft,
    Nat.testBit_two_pow_sub_one, Nat.add_sub_cancel_left, ge_iff_le,
    Nat.le_add_right, decide_True, Bool.true_and]
  by_cases hl : i < len
  · have hsw : s + i < W := by omega
    simp [hl, hsw]
  · simp [hl]

/-- A 64-bit value in the sign-extended range (the image of a negative
32-bit int) has all of bits 31 to 63 set, so it absorbs the bits 39
and 45 under AND. -/
theorem high_mask_and (m : Nat) (hlo : 2 ^ 64 - 2 ^ 31 ≤ m) (hhi : m < 2 ^ 64) :
    (2 ^ 39 + 2 ^ 45) &&& m = 2 ^ 39 + 2 ^ 45 := by
  have hdiv : m >>> 31 = 2 ^ 33 - 1 := by
    rw [Nat.shiftRight_eq_div_pow]
    norm_num at hlo hhi ⊢
    omega
  have hb : ∀ j, j < 33 → Nat.testBit m (31 + j) = true := by
    intro j hj
    have ht : Nat.testBit (m >>> 31) j = true := by
      rw [hdiv, Nat.testBit_two_pow_sub_one]
      simpa using hj
    simpa [Nat.testBit_shiftRight] using ht
  have h39 : Nat.testBit m 39 = true := by
    have := hb 8 (by norm_num)
    simpa using this
  have h45 : Nat.testBit m 45 = true := by
    have := hb 14 (by norm_num)
    simpa using this
  apply Nat.eq_of_testBit_eq
  intro i
  rw [Nat.testBit_and]
  by_cases h1 : i = 39
  · subst h1
    rw [h39, Bool.and_true]
  · by_cases h2 : i = 45
    · subst h2
      rw [h45, Bool.and_true]
    · have e1 : Nat.testBit (2 ^ 39 + 2 ^ 45) i = false := by
        have hv : (2 ^ 39 + 2 ^ 45 : Nat) = 2 ^ 39 ||| 2 ^ 45 := by decide
        rw [hv, Nat.testBit_or, Nat.testBit_two_pow_of_ne (fun h => h1 h.symm),
          Nat.testBit_two_pow_of_ne (fun h => h2 h.symm)]
        rfl
      rw [e1, Bool.false_and]

/-- The split on semicolons never yields an empty list of pieces. -/
theorem splitSemi_ne_nil (s : List Char) : splitSemi s ≠ [] := by
  induction s with
  | nil => simp [splitSemi]
  | cons c rest ih =>
    simp only [splitSemi]
    by_cases hc : c = ';'
    · simp [hc]
    · simp only [hc, if_false]
      cases hr : splitSemi rest with
      | nil => simp
      | cons h t => simp

/-- Splitting distributes over an explicit semicolon boundary. -/
theorem splitSemi_append (a b : List Char) :
    splitSemi (a ++ ';' :: b) = splitSemi a ++ splitSemi b := by
  induction a with
  | nil => simp [splitSemi]
  | cons c a ih =>
    by_cases hc : c = ';'
    · simp [splitSemi, List.append_eq, hc, ih]
    · simp only [List.cons_append, splitSemi, List.append_eq, ih, if_neg hc]
      cases ha : splitSemi a with
      | nil => exact absurd ha (splitSemi_ne_nil a)
      | cons h t => simp

/-- The regex field parser processes the two sides of a semicolon
independently. -/
theorem parse_struct_fields_append (a b : List Char) :
    parse_struct_fields (a ++ ';' :: b) =
      parse_struct_fields a ++ parse_struct_fields b := by
  simp [parse_struct_fields, splitSemi_append, List.map_append,
    List.filter_append, List.filterMap_append]

/-- With the counter starting at `c`, `process` emits the message
definitions in source order and numbers them `c, c+1, ...`. -/
theorem processDefs_ordinals (defs : List Definition) (c : Nat) :
    (processDefs c defs).1.map GeneratedMessage.name =
      (defs.filter isMessageDef).map Definition.name ∧
    ∀ k, ∀ hk : k < (processDefs c defs).1.length,
      ((processDefs c defs).1.get ⟨k, hk⟩).message_type_id = c + k := by
  induction defs generalizing c with
  | nil => simp [processDefs]
  | cons d rest ih =>
    cases hp : d.payload with
    | message fds =>
      have ih1 := ih (c + 1)
      constructor
      · simp [processDefs, hp, isMessageDef, generate_message, ih1.1]
      · intro k hk
        match k with
        | 0 => simp [processDefs, hp, generate_message]
        | k + 1 =>
          have hk2 : k < (processDefs (c + 1) rest).1.length := by
            have := hk
            simp [processDefs, hp] at this
            omega
          have := ih1.2 k hk2
          simp [processDefs, hp, List.get] at this ⊢
          omega
    | constant tr v =>
      have ih1 := ih c
      constructor
      · simp [processDefs, hp, isMessageDef, ih1.1]
      · intro k hk
        have hk2 : k < (processDefs c rest).1.length := by
          have := hk
          simp [processDefs, hp] at this
          exact this
        have := ih1.2 k hk2
        simp [processDefs, hp] at this ⊢
        exact this
    | primitive bt bo =>
      have ih1 := ih c
      constructor
      · simp [processDefs, hp, isMessageDef, ih1.1]
      · intro k hk
        have hk2 : k < (processDefs c rest).1.length := by
          have := hk
          simp [processDefs, hp] at this
          exact this
        have := ih1.2 k hk2
        simp [processDefs, hp] at this ⊢
        exact this

/-- A PDL type name distinct from all ten primitive names falls through
`type_map` to the `+ "_t"` default of `get_c_type`. -/
theorem get_c_type_unknown (ref : String)
    (h : ref ≠ "u8" ∧ ref ≠ "u16" ∧ ref ≠ "u32" ∧ ref ≠ "u64" ∧ ref ≠ "i8" ∧
         ref ≠ "i16" ∧ ref ≠ "i32" ∧ ref ≠ "i64" ∧ ref ≠ "f32" ∧ ref ≠ "f64") :
    get_c_type ref = ref ++ "_t" := by
  obtain ⟨h1, h2, h3, h4, h5, h6, h7, h8, h9, h10⟩ := h
  have e1 : (ref == "u8") = false := beq_eq_false_iff_ne.mpr h1
  have e2 : (ref == "u16") = false := beq_eq_false_iff_ne.mpr h2
  have e3 : (ref == "u32") = false := beq_eq_false_iff_ne.mpr h3
  have e4 : (ref == "u64") = false := beq_eq_false_iff_ne.mpr h4
  have e5 : (ref == "i8") = false := beq_eq_false_iff_ne.mpr h5
  have e6 : (ref == "i16") = false := beq_eq_false_iff_ne.mpr h6
  have e7 : (ref == "i32") = false := beq_eq_false_iff_ne.mpr h7
  have e8 : (ref == "i64") = false := beq_eq_false_iff_ne.mpr h8
  have e9 : (ref == "f32") = false := beq_eq_false_iff_ne.mpr h9
  have e10 : (ref == "f64") = false := beq_eq_false_iff_ne.mpr h10
  simp [get_c_type, type_map, List.lookup, e1, e2, e3, e4, e5, e6, e7, e8,
    e9, e10]

/-! ## Claim theorems -/

/-- C1 (counterexample): the emitted 4-byte swapped encode plans do not
produce the spec's byte vectors for the value 0x12345678: the
`_be_bs` plan yields `[78, 56, 12, 34]`, not the claimed
`[56, 78, 12, 34]`, and the `_le_bs` plan yields `[56, 78, 12, 34]`,
not the claimed `[34, 12, 78, 56]`. -/
theorem c1_swapped_order_counterexample :
    encode_be_bs4 0x12345678 = [0x78, 0x56, 0x12, 0x34] ∧
    encode_be_bs4 0x12345678 ≠ [0x56, 0x78, 0x12, 0x34] ∧
    encode_le_bs4 0x12345678 = [0x56, 0x78, 0x12, 0x34] ∧
    encode_le_bs4 0x12345678 ≠ [0x34, 0x12, 0x78, 0x56] := by
  decide

/-- C1 (amended): the encode plans emitted for the 4-byte primitive
types map the value 0x12345678 to `[12, 34, 56, 78]` under `_be`,
`[78, 56, 34, 12]` under `_le`, `[78, 56, 12, 34]` under `_be_bs`, and
`[56, 78, 12, 34]` under `_le_bs`. -/
theorem c1_encode_vectors_of_code :
    encode_be4 0x12345678 = [0x12, 0x34, 0x56, 0x78] ∧
    encode_le4 0x12345678 = [0x78, 0x56, 0x34, 0x12] ∧
    encode_be_bs4 0x12345678 = [0x78, 0x56, 0x12, 0x34] ∧
    encode_le_bs4 0x12345678 = [0x56, 0x78, 0x12, 0x34] := by
  decide

/-- C2: the decode/encode plans are not inverses for the float types:
decoding the `codec_f32_be` bytes `[00, 00, 00, 01]` assigns the
integer 1 to the float field — a numeric conversion producing 1.0f
(bit pattern 0x3F800000) — so re-encoding yields `[3F, 80, 00, 00]`
instead of the original bytes. -/
theorem c2_float_roundtrip_failure :
    decode_f32_be [0x00, 0x00, 0x00, 0x01] = 0x3F800000 ∧
    encode_f32_be (decode_f32_be [0x00, 0x00, 0x00, 0x01]) =
      [0x3F, 0x80, 0x00, 0x00] ∧
    encode_f32_be (decode_f32_be [0x00, 0x00, 0x00, 0x01]) ≠
      [0x00, 0x00, 0x00, 0x01] := by
  decide

/-- C3: the emitted `f32` decode numerically converts the shifted
integer to the float value instead of reinterpreting its bits: for the
bytes `[00, 00, 00, 02]` the integer expression yields 2, the float
field receives `(float)2` with bit pattern 0x40000000, the union
sequence `u.i = *((uint32_t*)&var); var = u.f;` is an identity on the
already-converted variable, and the result differs from the bit
pattern 0x00000002 that bit-identical reinterpretation would give. -/
theorem c3_float_decode_is_numeric_conversion :
    decode_be4 [0x00, 0x00, 0x00, 0x02] = 2 ∧
    decode_f32_be [0x00, 0x00, 0x00, 0x02] =
      natToF32bits (decode_be4 [0x00, 0x00, 0x00, 0x02]) ∧
    f32_var_of_bits (f32_bits_of_var (natToF32bits 2)) = natToF32bits 2 ∧
    decode_f32_be [0x00, 0x00, 0x00, 0x02] = 0x40000000 ∧
    decode_f32_be [0x00, 0x00, 0x00, 0x02] ≠
      decode_be4 [0x00, 0x00, 0x00, 0x02] := by
  decide

/-- C4: when the second (scalar `u16`) field of a three-field record
fails decoding with `OUT_OF_BOUNDS` on a 1-byte buffer, the emitted
decode propagates the error and leaves the output unset but does
**not** dispose the record allocated so far (`disposedOnFailure =
false`), unlike the nested-struct field path, which does dispose on
the same failure. -/
theorem c4_scalar_failure_leaks_record :
    recordDecode [FieldShape.scalar 1, FieldShape.scalar 2,
                  FieldShape.scalar 1] 1 =
      ⟨some CodecErr.out_of_bounds, false, false⟩ ∧
    recordDecode [FieldShape.scalar 1, FieldShape.nested [FieldShape.scalar 4],
                  FieldShape.scalar 1] 2 =
      ⟨some CodecErr.out_of_bounds, true, false⟩ := by
  constructor <;> simp [recordDecode, runFields]

/-- C5 (counterexample): for a 40-bit bit-field in a `uint64_t`
container at `start_bit = 0` (admitted, since nothing validates
lengths), the emitted mask expression `((1 << 40) - 1)` is 32-bit int
arithmetic: no int's 64-bit image equals the 40-bit mask, and under
every possible runtime value of its three occurrences, setting
`v = 2^39 + 2^45` into a zero container and reading back differs from
the low 40 bits of `v` — the claimed guarantee fails for this
bit-field. -/
theorem c5_bitfield_intwidth_counterexample :
    (¬ ∃ m : Nat, i32AsU64 m ∧ m = bf_mask 40) ∧
    ¬ ∃ m1 m2 m3 : Nat, (i32AsU64 m1 ∧ i32AsU64 m2 ∧ i32AsU64 m3) ∧
        bf_setget64_ub 0 (2 ^ 39 + 2 ^ 45) m1 m2 m3 =
          (2 ^ 39 + 2 ^ 45) &&& bf_mask 40 := by
  have hmask : bf_mask 40 = 2 ^ 40 - 1 := by decide
  have hexp : (2 ^ 39 + 2 ^ 45) &&& bf_mask 40 = 2 ^ 39 := by decide
  constructor
  · rintro ⟨m, hm, hEq⟩
    rw [hmask] at hEq
    rcases hm with h | ⟨ha, hb⟩
    · subst hEq
      norm_num at h
    · subst hEq
      norm_num at ha
  · rintro ⟨m1, m2, m3, ⟨h1, h2, h3⟩, heq⟩
    rw [hexp] at heq
    have hred : bf_setget64_ub 0 (2 ^ 39 + 2 ^ 45) m1 m2 m3 =
        ((2 ^ 39 + 2 ^ 45) &&& m2) &&& m3 := by
      simp [bf_setget64_ub]
    rw [hred] at heq
    rcases h2 with h2l | ⟨h2a, h2b⟩
    · have hle : ((2 ^ 39 + 2 ^ 45) &&& m2) &&& m3 ≤ m2 :=
        le_trans Nat.and_le_left Nat.and_le_right
      rw [heq] at hle
      norm_num at hle h2l
      omega
    · rcases h3 with h3l | ⟨h3a, h3b⟩
      · have hle : ((2 ^ 39 + 2 ^ 45) &&& m2) &&& m3 ≤ m3 := Nat.and_le_right
        rw [heq] at hle
        norm_num at hle h3l
        omega
      · rw [high_mask_and m2 h2a h2b, high_mask_and m3 h3a h3b] at heq
        norm_num at heq

/-- C5 (amended): for every bit-field that fits its container and
whose parameters keep the emitted 32-bit int mask arithmetic defined
and exact (`length ≤ 30` and `start_bit + length ≤ 31`), calling the
emitted setter and then the emitted getter returns exactly the low
`length` bits of the value passed (higher bits silently truncated,
never an error); in particular with an 8-bit container,
`start_bit = 2`, `length = 3`, setting 7 into a zero container gives
bits 0b00011100 and setting 9 reads back as 1. -/
theorem c5_bitfield_set_then_get (W s len c v : Nat) (hW : s + len ≤ W)
    (hlen : len ≤ 30) (hbound : s + len ≤ 31) :
    bf_get s len (bf_set W s len c v) = v &&& bf_mask len ∧
    bf_set 8 2 3 0 7 = 0b00011100 ∧
    bf_get 2 3 (bf_set 8 2 3 0 9) = 1 :=
  ⟨bf_get_bf_set W s len c v hW, by decide, by decide⟩

/-- C5 witness: instance at an 8-bit container, `start_bit = 2`,
`length = 3`, container value 0xFF, set value 9. -/
theorem c5_bitfield_set_then_get_witness :
    (2 + 3 ≤ 8 ∧ 3 ≤ 30 ∧ 2 + 3 ≤ 31) ∧
    (bf_get 2 3 (bf_set 8 2 3 0xFF 9) = 9 &&& bf_mask 3 ∧
     bf_set 8 2 3 0 7 = 0b00011100 ∧
     bf_get 2 3 (bf_set 8 2 3 0 9) = 1) :=
  ⟨⟨by decide, by decide, by decide⟩,
   c5_bitfield_set_then_get 8 2 3 0xFF 9 (by decide) (by decide) (by decide)⟩

/-- C6 (counterexample): a schema whose only message has a field
referencing the never-defined type name `bogus` is processed without
any error and produces generated code: a message struct whose field
gets the fabricated C type `bogus_t`. -/
theorem c6_unknown_type_counterexample :
    process [⟨"M", DefPayload.message [⟨"f", FieldTypeSpec.type_ref "bogus"⟩]⟩] =
      ([⟨"M", [⟨"f", "bogus_t", false, false, none⟩], 1⟩], []) := by
  decide

/-- C6 (amended): an undefined type reference is never rejected: any
name outside the ten primitive names is mapped to `<name>_t` by
`get_c_type`, the field is generated with that fabricated type, and
`process` produces one generated message per message definition with
no failure path. -/
theorem c6_unknown_type_amended (ref : String)
    (h : ref ≠ "u8" ∧ ref ≠ "u16" ∧ ref ≠ "u32" ∧ ref ≠ "u64" ∧ ref ≠ "i8" ∧
         ref ≠ "i16" ∧ ref ≠ "i32" ∧ ref ≠ "i64" ∧ ref ≠ "f32" ∧ ref ≠ "f64") :
    get_c_type ref = ref ++ "_t" ∧
    (∀ fname : String,
      generate_field ⟨fname, FieldTypeSpec.type_ref ref⟩ =
        some ⟨fname, ref ++ "_t", false, false, none⟩) ∧
    ∀ defs : List Definition,
      ((process defs).1).length = (defs.filter isMessageDef).length := by
  have hg := get_c_type_unknown ref h
  refine ⟨hg, fun fname => ?_, fun defs => ?_⟩
  · simp [generate_field, hg]
  · have hmap := (processDefs_ordinals defs 1).1
    have hlen := congrArg List.length hmap
    simpa using hlen

/-- C6 witness: instance at the undefined name `bogus`. -/
theorem c6_unknown_type_amended_witness :
    ("bogus" ≠ "u8" ∧ "bogus" ≠ "u16" ∧ "bogus" ≠ "u32" ∧ "bogus" ≠ "u64" ∧
     "bogus" ≠ "i8" ∧ "bogus" ≠ "i16" ∧ "bogus" ≠ "i32" ∧ "bogus" ≠ "i64" ∧
     "bogus" ≠ "f32" ∧ "bogus" ≠ "f64") ∧
    (get_c_type "bogus" = "bogus" ++ "_t" ∧
     (∀ fname : String,
       generate_field ⟨fname, FieldTypeSpec.type_ref "bogus"⟩ =
         some ⟨fname, "bogus" ++ "_t", false, false, none⟩) ∧
     ∀ defs : List Definition,
       ((process defs).1).length = (defs.filter isMessageDef).length) :=
  ⟨by decide, c6_unknown_type_amended "bogus" (by decide)⟩

/-- C7 (counterexample): a bit-field whose `start_bit + length`
(7 + 5 = 12) exceeds the 8-bit width of its `u8` container field is
accepted without any semantic error, and `generate_header`'s accessor
filter emits a getter/setter pair for it. -/
theorem c7_bitfield_range_counterexample :
    headerBitFieldAccessors
      ((process
        [⟨"u8_reg", DefPayload.primitive "u8" []⟩,
         ⟨"M", DefPayload.message
           [⟨"flags", FieldTypeSpec.type_ref "u8"⟩,
            ⟨"oops", FieldTypeSpec.bit_field (bit_source "flags" 7 5)⟩]⟩]).1.get
        ⟨0, by decide⟩) =
      [⟨"oops", "uint8_t", false, true, some ⟨"flags", 7, 5⟩⟩] := by
  decide

/-- C7 (amended): no bit-field range validation exists anywhere in the
pipeline: the `bit_source` transformer passes the raw parameters
through, `generate_field` accepts every bit-field spec unconditionally,
and the accessor pair is emitted for every bit-field of a message,
regardless of `start_bit + length` versus the container's width. -/
theorem c7_bitfield_range_amended (name container mname : String)
    (s len counter : Nat) :
    bit_source container s len = ⟨container, s, len⟩ ∧
    generate_field ⟨name, FieldTypeSpec.bit_field (bit_source container s len)⟩ =
      some ⟨name, get_bit_field_type len, false, true, some ⟨container, s, len⟩⟩ ∧
    headerBitFieldAccessors
      (generate_message
        ⟨mname, DefPayload.message
          [⟨name, FieldTypeSpec.bit_field (bit_source container s len)⟩]⟩ counter) =
      [⟨name, get_bit_field_type len, false, true, some ⟨container, s, len⟩⟩] := by
  refine ⟨rfl, rfl, ?_⟩
  simp [headerBitFieldAccessors, generate_message, generate_field, bit_source]

/-- C8 (counterexample): the struct body `u8 x;$garbage$` contains
text outside the field grammar, yet `parse_struct_fields` neither
fails nor reports anything: it returns the one matching field and
silently drops the garbage segment. -/
theorem c8_silent_drop_counterexample :
    parse_struct_fields ("u8 x;$garbage$".toList) =
      [⟨"u8", "x", none, false⟩] := by
  decide

/-- C8 (amended): parsing is a total function of the input text (hence
deterministic), but a trailing segment that matches no field pattern is
silently discarded with no error: appending it after a semicolon leaves
the parse result unchanged. -/
theorem c8_parsing_silent_drop (body junk : List Char)
    (h : parse_struct_fields junk = []) :
    parse_struct_fields (body ++ ';' :: junk) = parse_struct_fields body := by
  rw [parse_struct_fields_append, h, List.append_nil]

/-- C8 witness: appending the non-matching segment `$garbage$` after
`u8 x;` does not change the parsed fields. -/
theorem c8_parsing_silent_drop_witness :
    parse_struct_fields ("$garbage$".toList) = [] ∧
    parse_struct_fields ("u8 x".toList ++ ';' :: "$garbage$".toList) =
      parse_struct_fields ("u8 x".toList) :=
  ⟨by decide,
   c8_parsing_silent_drop ("u8 x".toList) ("$garbage$".toList) (by decide)⟩

/-- C9: message-type ordinals are assigned strictly in schema
definition order starting at 1 — the k-th generated message (these are
exactly the message definitions, in source order, regardless of
interleaved primitive/constant definitions) has `message_type_id =
k + 1` for 0-based `k`. -/
theorem c9_ordinal_assignment (defs : List Definition) (k : Nat)
    (hk : k < ((process defs).1).length) :
    (((process defs).1).get ⟨k, hk⟩).message_type_id = k + 1 ∧
    ((process defs).1).map GeneratedMessage.name =
      (defs.filter isMessageDef).map Definition.name := by
  have h := processDefs_ordinals defs 1
  exact ⟨by simpa [Nat.add_comm] using h.2 k hk, h.1⟩

/-- C9 witness: a unit with a primitive, then message `zeta`, then a
constant, then message `alpha` (alphabetically before `zeta`): the
second message gets ordinal 2. -/
theorem c9_ordinal_assignment_witness :
    1 < ((process [⟨"zz_reg", DefPayload.primitive "u16" [0, 1]⟩,
                   ⟨"zeta", DefPayload.message []⟩,
                   ⟨"kmax", DefPayload.constant "u16" 7⟩,
                   ⟨"alpha", DefPayload.message []⟩]).1).length ∧
    ((((process [⟨"zz_reg", DefPayload.primitive "u16" [0, 1]⟩,
                 ⟨"zeta", DefPayload.message []⟩,
                 ⟨"kmax", DefPayload.constant "u16" 7⟩,
                 ⟨"alpha", DefPayload.message []⟩]).1).get
        ⟨1, by decide⟩).message_type_id = 1 + 1 ∧
     ((process [⟨"zz_reg", DefPayload.primitive "u16" [0, 1]⟩,
                ⟨"zeta", DefPayload.message []⟩,
                ⟨"kmax", DefPayload.constant "u16" 7⟩,
                ⟨"alpha", DefPayload.message []⟩]).1).map
        GeneratedMessage.name =
      ([⟨"zz_reg", DefPayload.primitive "u16" [0, 1]⟩,
        ⟨"zeta", DefPayload.message []⟩,
        ⟨"kmax", DefPayload.constant "u16" 7⟩,
        ⟨"alpha", DefPayload.message []⟩].filter isMessageDef).map
        Definition.name) :=
  ⟨by decide,
   c9_ordinal_assignment
     [⟨"zz_reg", DefPayload.primitive "u16" [0, 1]⟩,
      ⟨"zeta", DefPayload.message []⟩,
      ⟨"kmax", DefPayload.constant "u16" 7⟩,
      ⟨"alpha", DefPayload.message []⟩] 1 (by decide)⟩

/-- C10 (counterexample): for a 40-bit bit-field in a `uint64_t`
container at `start_bit = 0`, the emitted int-width mask expression is
undefined behaviour; under its sign-extended resolution -1 (64-bit
image `2^64 - 1`), setting `v = 2^39 + 2^45` into a zero container
caches `v` but the getter also returns the full `v`: the two agree,
and the getter does not return `v` masked — the claimed disagreement
fails for this bit-field. -/
theorem c10_intwidth_agreement_counterexample :
    i32AsU64 (2 ^ 64 - 1) ∧
    (bfmsg_setget64_ub ⟨0, 0, []⟩ (2 ^ 39 + 2 ^ 45) (2 ^ 64 - 1) (2 ^ 64 - 1)
        (2 ^ 64 - 1)).1.cached = 2 ^ 39 + 2 ^ 45 ∧
    (bfmsg_setget64_ub ⟨0, 0, []⟩ (2 ^ 39 + 2 ^ 45) (2 ^ 64 - 1) (2 ^ 64 - 1)
        (2 ^ 64 - 1)).2 =
      (bfmsg_setget64_ub ⟨0, 0, []⟩ (2 ^ 39 + 2 ^ 45) (2 ^ 64 - 1) (2 ^ 64 - 1)
        (2 ^ 64 - 1)).1.cached ∧
    (bfmsg_setget64_ub ⟨0, 0, []⟩ (2 ^ 39 + 2 ^ 45) (2 ^ 64 - 1) (2 ^ 64 - 1)
        (2 ^ 64 - 1)).2 ≠ (2 ^ 39 + 2 ^ 45) &&& bf_mask 40 :=
  ⟨Or.inr ⟨by norm_num, by norm_num⟩, by decide, by decide, by decide⟩

/-- C10 (amended): for bit-fields in the region where the emitted
32-bit int mask arithmetic is defined and exact (`length ≤ 30` and
`start_bit + length ≤ 31`), the emitted setter writes the masked bits
into the container and stores the full value into the struct member
named after the bit-field, touching nothing else, while the getter
reads only the container; hence when the value has bits above the low
`length` bits, the cached member and the getter's result disagree. -/
theorem c10_setter_cache_divergence (W s len v : Nat) (m : BfMsg)
    (hr : s + len ≤ W) (hlen : len ≤ 30) (hbound : s + len ≤ 31)
    (hv : v < 2 ^ bitFieldTypeWidth len)
    (hm : v &&& bf_mask len ≠ v) :
    (bfmsg_set W s len m v).cached = v ∧
    (bfmsg_set W s len m v).others = m.others ∧
    bfmsg_get s len (bfmsg_set W s len m v) = v &&& bf_mask len ∧
    bfmsg_get s len (bfmsg_set W s len m v) ≠ (bfmsg_set W s len m v).cached ∧
    ∀ c x1 x2 o1 o2, bfmsg_get s len ⟨c, x1, o1⟩ = bfmsg_get s len ⟨c, x2, o2⟩ := by
  have hget : bfmsg_get s len (bfmsg_set W s len m v) = v &&& bf_mask len := by
    simpa [bfmsg_get, bfmsg_set] using bf_get_bf_set W s len m.container v hr
  refine ⟨rfl, rfl, hget, ?_, fun c x1 x2 o1 o2 => rfl⟩
  rw [hget]
  exact hm

/-- C10 witness: 8-bit container, `start_bit = 2`, `length = 3`,
setting 9 (a `uint8_t` value with bits above the low three): the
cached member holds 9 while the getter returns 1. -/
theorem c10_setter_cache_divergence_witness :
    (2 + 3 ≤ 8 ∧ 3 ≤ 30 ∧ 2 + 3 ≤ 31 ∧ 9 < 2 ^ bitFieldTypeWidth 3 ∧
     9 &&& bf_mask 3 ≠ 9) ∧
    ((bfmsg_set 8 2 3 ⟨0, 0, [5]⟩ 9).cached = 9 ∧
     (bfmsg_set 8 2 3 ⟨0, 0, [5]⟩ 9).others = BfMsg.others ⟨0, 0, [5]⟩ ∧
     bfmsg_get 2 3 (bfmsg_set 8 2 3 ⟨0, 0, [5]⟩ 9) = 9 &&& bf_mask 3 ∧
     bfmsg_get 2 3 (bfmsg_set 8 2 3 ⟨0, 0, [5]⟩ 9) ≠
       (bfmsg_set 8 2 3 ⟨0, 0, [5]⟩ 9).cached ∧
     ∀ c x1 x2 o1 o2, bfmsg_get 2 3 ⟨c, x1, o1⟩ = bfmsg_get 2 3 ⟨c, x2, o2⟩) :=
  ⟨⟨by decide, by decide, by decide, by decide, by decide⟩,
   c10_setter_cache_divergence 8 2 3 9 ⟨0, 0, [5]⟩ (by decide) (by decide)
     (by decide) (by decide) (by decide)⟩

end ProtocolToolkit
